import Mathlib

/-! Verification of `MyArc`, a reference-counted shared-ownership pointer
(`src/src/lib.rs`).  The Rust heap is modelled as a list of control-block
slots indexed by address; `none` marks a slot whose control block has been
deallocated.  Handles (`MyArc`) are pointers (addresses) into that heap.
The atomic reference count is an unsigned 64-bit machine word, modelled as
a `Nat` reduced modulo `2 ^ 64` wherever the Rust code can wrap.
Sequential executions of the operations are modelled by explicit state
passing; `Option` captures the undefined behaviour of touching a dangling
pointer, which never occurs in the verified scenarios.
-/

/-- Modulus of a 64-bit `usize`: `fetch_add`/`fetch_sub` wrap modulo this value
(`18446744073709551616 = 2 ^ 64`). -/
def usizeSize : Nat := 18446744073709551616

/-- Greatest value of a 64-bit `isize` (`9223372036854775807 = 2 ^ 63 - 1`),
the overflow threshold `isize::MAX as usize` used by `Clone`. -/
def isizeMax : Nat := 9223372036854775807

/-- Control block `ArcInner<T>`: the control block, one shared heap allocation holding the
atomic reference count `rc` and the payload `data`. -/
structure ArcInner (T : Type) where
  rc : Nat
  data : T
  deriving Repr, DecidableEq

/-- The heap: a list of control-block slots.  The index of a slot is its
address; a `none` entry is a freed (deallocated) block. -/
structure Heap (T : Type) where
  blocks : List (Option (ArcInner T))
  deriving Repr, DecidableEq

/-- The empty heap, before any allocation. -/
def Heap.empty (T : Type) : Heap T := ⟨[]⟩

/-- Read the control block at address `i`; `none` when the address is out of
range or the block has been freed (a dangling pointer). -/
def Heap.get (h : Heap T) (i : Nat) : Option (ArcInner T) :=
  match h.blocks[i]? with
  | some (some b) => some b
  | _ => none

/-- Overwrite the slot at address `i` (no-op when out of range, which never
happens in the verified scenarios). -/
def Heap.set (h : Heap T) (i : Nat) (b : Option (ArcInner T)) : Heap T :=
  ⟨h.blocks.set i b⟩

/-- Handle `MyArc<T>`: a handle, holding the address (`NonNull` pointer) of its
control block. -/
structure MyArc where
  ptr : Nat
  deriving Repr, DecidableEq

/-- Constructor `MyArc::new` — allocate a fresh control block with `rc = 1` and
`data = value` at a fresh address and return a handle to it, together with
the updated heap. -/
def MyArc.new (data : T) (h : Heap T) : MyArc × Heap T :=
  (⟨h.blocks.length⟩, ⟨h.blocks ++ [some ⟨1, data⟩]⟩)

/-- Counter read `MyArc::count` — `Acquire` load of the reference count through the
handle's pointer. -/
def MyArc.count (a : MyArc) (h : Heap T) : Option Nat :=
  (Heap.get h a.ptr).map (fun inner => inner.rc)

/-- Read access `Deref for MyArc` — shared read access to the payload. -/
def MyArc.deref (a : MyArc) (h : Heap T) : Option T :=
  (Heap.get h a.ptr).map (fun inner => inner.data)

/-- Write access `DerefMut for MyArc` followed by a store (`*a = v`): unconditionally
obtain a mutable reference to the payload and write `v` through it.  The
reference count is not consulted. -/
def MyArc.setData (a : MyArc) (v : T) (h : Heap T) : Option (Heap T) :=
  (Heap.get h a.ptr).map (fun inner => Heap.set h a.ptr (some ⟨inner.rc, v⟩))

/-- Result of `Clone::clone`: either a new handle plus the updated heap, or
process abort (`std::process::abort()`); the heap at the moment of the abort
is recorded. -/
inductive CloneResult (T : Type) where
  | ok (b : MyArc) (h : Heap T)
  | aborted (h : Heap T)
  deriving Repr, DecidableEq

/-- Cloning `Clone for MyArc` — `rc.fetch_add(1, Relaxed)` (wrapping), then abort if
the returned old value was `≥ isize::MAX as usize`; otherwise a new handle
with the same pointer is returned. -/
def MyArc.clone (a : MyArc) (h : Heap T) : Option (CloneResult T) :=
  match Heap.get h a.ptr with
  | none => none
  | some inner =>
    let old := inner.rc
    let h' := Heap.set h a.ptr (some ⟨(old + 1) % usizeSize, inner.data⟩)
    if isizeMax ≤ old then some (CloneResult.aborted h')
    else some (CloneResult.ok ⟨a.ptr⟩ h')

/-- Destruction `Drop for MyArc` — `rc.fetch_sub(1, Release)` (wrapping); if the old
value was not `1` the operation returns, otherwise an `Acquire` fence is
issued and `Box::from_raw` frees the control block, running the payload's
teardown (`Drop for ArcInner`, then the field drops).  The boolean records
whether the teardown/deallocation ran in this call. -/
def MyArc.drop (a : MyArc) (h : Heap T) : Option (Heap T × Bool) :=
  match Heap.get h a.ptr with
  | none => none
  | some inner =>
    let old := inner.rc
    let h' := Heap.set h a.ptr (some ⟨(old + (usizeSize - 1)) % usizeSize, inner.data⟩)
    if old ≠ 1 then some (h', false)
    else some (Heap.set h' a.ptr none, true)

/-- Perform `n` successive `clone`s through handle `a` (the returned handles
all alias `a`, so only the heap evolves); `none` when a clone aborts or the
pointer dangles. -/
def cloneN : Nat → MyArc → Heap T → Option (Heap T)
  | 0, _, h => some h
  | n + 1, a, h =>
    match MyArc.clone a h with
    | some (CloneResult.ok _ h') => cloneN n a h'
    | _ => none

/-- Perform `n` successive `drop`s through handle `a`, also counting how many
of them ran the payload teardown / deallocation. -/
def dropN : Nat → MyArc → Heap T → Option (Heap T × Nat)
  | 0, _, h => some (h, 0)
  | n + 1, a, h =>
    (MyArc.drop a h).bind fun s =>
      (dropN n a s.1).map fun t => (t.1, (if s.2 then 1 else 0) + t.2)

/-- Thread-safety capability flags of a type: `send` (the value may be
transferred to another thread) and `sync` (the value may be accessed
concurrently from several threads). -/
structure TypeCaps where
  send : Bool
  sync : Bool
  deriving Repr, DecidableEq

/-- Capability propagation of `Send`/`Sync` for `MyArc<T>`:
`unsafe impl<T: Send + Sync> Sync for MyArc<T>`: `MyArc<T>` is `Send`
exactly when `T` is both `Send` and `Sync`, and likewise for `Sync`
(with no impl, the raw-pointer field leaves `MyArc<T>` neither `Send` nor
`Sync`). -/
def myArcCaps (t : TypeCaps) : TypeCaps :=
  ⟨t.send && t.sync, t.send && t.sync⟩

/-! Basic heap lemmas -/

theorem Heap.get_some_lt {h : Heap T} {i : Nat} {inner : ArcInner T}
    (hg : Heap.get h i = some inner) : i < h.blocks.length := by
  unfold Heap.get at hg
  by_contra hlt
  rw [List.getElem?_eq_none (by omega)] at hg
  simp at hg

theorem Heap.get_some_elem {h : Heap T} {i : Nat} {inner : ArcInner T}
    (hg : Heap.get h i = some inner) : h.blocks[i]? = some (some inner) := by
  unfold Heap.get at hg
  cases he : h.blocks[i]? with
  | none => rw [he] at hg; simp at hg
  | some o =>
    cases o with
    | none => rw [he] at hg; simp at hg
    | some b => rw [he] at hg; simp at hg; rw [hg]

theorem Heap.get_set_self {h : Heap T} {i : Nat} (b : Option (ArcInner T))
    (hi : i < h.blocks.length) :
    Heap.get (Heap.set h i b) i = b := by
  unfold Heap.get Heap.set
  simp only [List.getElem?_set_self hi]
  cases b <;> simp

/-! Single-block execution lemmas:

After `MyArc.new v (Heap.empty T)` the heap consists of exactly one control
block at address `0`; every handle produced by cloning aliases address `0`,
so the whole execution lives on the heap `⟨[some ⟨r, v⟩]⟩`. -/

theorem clone_single {r : Nat} (v : T) (hr : r < isizeMax) :
    MyArc.clone ⟨0⟩ (⟨[some ⟨r, v⟩]⟩ : Heap T) =
      some (CloneResult.ok ⟨0⟩ ⟨[some ⟨r + 1, v⟩]⟩) := by
  have hm : (r + 1) % usizeSize = r + 1 :=
    Nat.mod_eq_of_lt (by unfold isizeMax at hr; unfold usizeSize; omega)
  unfold MyArc.clone
  show (if isizeMax ≤ r then _ else _) = _
  rw [if_neg (by omega)]
  show some (CloneResult.ok ⟨0⟩ ⟨[some ⟨(r + 1) % usizeSize, v⟩]⟩) = _
  rw [hm]

theorem drop_single_decr {r : Nat} (v : T) (h2 : 2 ≤ r) (hlt : r < usizeSize) :
    MyArc.drop ⟨0⟩ (⟨[some ⟨r, v⟩]⟩ : Heap T) =
      some (⟨[some ⟨r - 1, v⟩]⟩, false) := by
  have hm : (r + (usizeSize - 1)) % usizeSize = r - 1 := by
    unfold usizeSize at hlt ⊢; omega
  unfold MyArc.drop
  show (if r ≠ 1 then _ else _) = _
  rw [if_pos (by omega)]
  show some ((⟨[some ⟨(r + (usizeSize - 1)) % usizeSize, v⟩]⟩ : Heap T), false) = _
  rw [hm]

theorem drop_single_last (v : T) :
    MyArc.drop ⟨0⟩ (⟨[some ⟨1, v⟩]⟩ : Heap T) = some (⟨[none]⟩, true) := rfl

theorem cloneN_succ {a b : MyArc} {h h' : Heap T} (n : Nat)
    (hc : MyArc.clone a h = some (CloneResult.ok b h')) :
    cloneN (n + 1) a h = cloneN n a h' := by
  simp only [cloneN, hc]

theorem dropN_succ {a : MyArc} {h h' : Heap T} {b : Bool} (n : Nat)
    (hd : MyArc.drop a h = some (h', b)) :
    dropN (n + 1) a h =
      (dropN n a h').map fun t => (t.1, (if b then 1 else 0) + t.2) := by
  simp only [dropN, hd, Option.some_bind]

theorem cloneN_single (n : Nat) :
    ∀ (r : Nat) (v : T), r + n ≤ isizeMax →
      cloneN n ⟨0⟩ (⟨[some ⟨r, v⟩]⟩ : Heap T) = some ⟨[some ⟨r + n, v⟩]⟩ := by
  induction n with
  | zero => intro r v _; rfl
  | succ n ih =>
    intro r v hbound
    have heq : r + 1 + n = r + (n + 1) := by omega
    rw [cloneN_succ n (clone_single (r := r) v (by omega)),
      ih (r + 1) v (by omega), heq]

theorem dropN_single (n : Nat) :
    ∀ (r : Nat) (v : T), n < r → r < usizeSize →
      dropN n ⟨0⟩ (⟨[some ⟨r, v⟩]⟩ : Heap T) = some (⟨[some ⟨r - n, v⟩]⟩, 0) := by
  induction n with
  | zero => intro r v _ _; rfl
  | succ n ih =>
    intro r v hn hlt
    have hrest := ih (r - 1) v (by omega) (by omega)
    have heq : r - 1 - n = r - (n + 1) := by omega
    rw [heq] at hrest
    rw [dropN_succ n (drop_single_decr (r := r) v (by omega) hlt), hrest]
    simp

theorem dropN_exact (n : Nat) :
    ∀ v : T, n + 1 ≤ isizeMax →
      dropN (n + 1) ⟨0⟩ (⟨[some ⟨n + 1, v⟩]⟩ : Heap T) = some (⟨[none]⟩, 1) := by
  induction n with
  | zero =>
    intro v _
    rw [dropN_succ 0 (drop_single_last v)]
    rfl
  | succ n ih =>
    intro v hbound
    have hstep := drop_single_decr (r := n + 1 + 1) v (by omega)
      (by unfold isizeMax at hbound; unfold usizeSize; omega)
    have heq : n + 1 + 1 - 1 = n + 1 := by omega
    rw [heq] at hstep
    rw [dropN_succ (n + 1) hstep, ih v (by omega)]
    simp

/-! Claim theorems -/

/-- C1: starting from the single handle produced by `MyArc::new`, `N` clones
followed by `N + 1` drops (the `N` clones plus the original, all aliasing
address `0`) run the payload teardown and free the control block exactly
once, and only at the last drop: after `N` clones the count is `N + 1`; the
first `N` drops perform zero teardowns and leave the block allocated with
count `1`; the final drop tears down and frees the block; the `N + 1` drops
together perform exactly one teardown. -/
theorem lifecycle_teardown_exactly_once (N : Nat) (v : T) (hN : N + 1 ≤ isizeMax) :
    MyArc.new v (Heap.empty T) = (⟨0⟩, ⟨[some ⟨1, v⟩]⟩) ∧
    cloneN N ⟨0⟩ (⟨[some ⟨1, v⟩]⟩ : Heap T) = some ⟨[some ⟨N + 1, v⟩]⟩ ∧
    dropN N ⟨0⟩ (⟨[some ⟨N + 1, v⟩]⟩ : Heap T) = some (⟨[some ⟨1, v⟩]⟩, 0) ∧
    MyArc.drop ⟨0⟩ (⟨[some ⟨1, v⟩]⟩ : Heap T) = some (⟨[none]⟩, true) ∧
    dropN (N + 1) ⟨0⟩ (⟨[some ⟨N + 1, v⟩]⟩ : Heap T) = some (⟨[none]⟩, 1) := by
  have hc := cloneN_single N 1 v (by omega)
  rw [Nat.add_comm 1 N] at hc
  have hd := dropN_single N (N + 1) v (by omega)
    (by unfold isizeMax at hN; unfold usizeSize; omega)
  have heq : N + 1 - N = 1 := by omega
  rw [heq] at hd
  exact ⟨rfl, hc, hd, drop_single_last v, dropN_exact N v hN⟩

/-- Witness for C1 at `N = 2`, `v = 5`. -/
theorem lifecycle_teardown_exactly_once_witness :
    2 + 1 ≤ isizeMax ∧
    (MyArc.new (5 : Nat) (Heap.empty Nat) = (⟨0⟩, ⟨[some ⟨1, 5⟩]⟩) ∧
     cloneN 2 ⟨0⟩ (⟨[some ⟨1, 5⟩]⟩ : Heap Nat) = some ⟨[some ⟨2 + 1, 5⟩]⟩ ∧
     dropN 2 ⟨0⟩ (⟨[some ⟨2 + 1, 5⟩]⟩ : Heap Nat) = some (⟨[some ⟨1, 5⟩]⟩, 0) ∧
     MyArc.drop ⟨0⟩ (⟨[some ⟨1, 5⟩]⟩ : Heap Nat) = some (⟨[none]⟩, true) ∧
     dropN (2 + 1) ⟨0⟩ (⟨[some ⟨2 + 1, 5⟩]⟩ : Heap Nat) = some (⟨[none]⟩, 1)) :=
  ⟨by decide, lifecycle_teardown_exactly_once 2 5 (by decide)⟩

/-- C2: for `a = MyArc::new(2)` and `b = a.clone()`, both handles observe
count `2` through the shared control block, and after dropping `a` the count
observed through `b` is `1`. -/
theorem construct_clone_destroy_counts :
    ∃ (b : MyArc) (h1 h2 : Heap Nat),
      MyArc.clone (MyArc.new 2 (Heap.empty Nat)).1 (MyArc.new 2 (Heap.empty Nat)).2 =
        some (CloneResult.ok b h1) ∧
      MyArc.count (MyArc.new 2 (Heap.empty Nat)).1 h1 = some 2 ∧
      MyArc.count b h1 = some 2 ∧
      MyArc.drop (MyArc.new 2 (Heap.empty Nat)).1 h1 = some (h2, false) ∧
      MyArc.count b h2 = some 1 :=
  ⟨⟨0⟩, ⟨[some ⟨2, 2⟩]⟩, ⟨[some ⟨1, 2⟩]⟩, rfl, rfl, rfl, rfl, rfl⟩

/-- C3: `count()` on the handle returned by `MyArc::new(v)`, before any
clone or drop, returns exactly `1`, whatever the prior heap. -/
theorem count_after_new (v : T) (h : Heap T) :
    MyArc.count (MyArc.new v h).1 (MyArc.new v h).2 = some 1 := by
  unfold MyArc.count MyArc.new Heap.get
  rw [List.getElem?_concat_length]
  rfl

/-- C6: reading the payload through the handle returned by `MyArc::new(v)`
yields exactly `v`, whatever the prior heap. -/
theorem deref_after_new (v : T) (h : Heap T) :
    MyArc.deref (MyArc.new v h).1 (MyArc.new v h).2 = some v := by
  unfold MyArc.deref MyArc.new Heap.get
  rw [List.getElem?_concat_length]
  rfl

/-- C4: a drop whose pre-decrement count is not `1` only decrements the
count by one (modulo the word size) and returns: no deallocation, no payload
teardown (flag `false`), the block remains allocated and its payload is
unchanged. -/
theorem drop_nonlast_only_decrements (h : Heap T) (a : MyArc) (inner : ArcInner T)
    (hget : Heap.get h a.ptr = some inner) (hrc : inner.rc ≠ 1) :
    ∃ (h' : Heap T) (inner' : ArcInner T),
      MyArc.drop a h = some (h', false) ∧
      Heap.get h' a.ptr = some inner' ∧
      inner'.data = inner.data ∧
      (inner'.rc + 1) % usizeSize = inner.rc % usizeSize := by
  have hlen := Heap.get_some_lt hget
  refine ⟨Heap.set h a.ptr (some ⟨(inner.rc + (usizeSize - 1)) % usizeSize, inner.data⟩),
    ⟨(inner.rc + (usizeSize - 1)) % usizeSize, inner.data⟩, ?_, ?_, ?_, ?_⟩
  · simp only [MyArc.drop, hget]
    rw [if_pos hrc]
  · exact Heap.get_set_self _ hlen
  · rfl
  · dsimp only
    unfold usizeSize
    omega

/-- Witness for C4: heap with one block of count `2` and payload `7`. -/
theorem drop_nonlast_only_decrements_witness :
    Heap.get (⟨[some ⟨2, 7⟩]⟩ : Heap Nat) (MyArc.ptr ⟨0⟩) = some ⟨2, 7⟩ ∧
    (ArcInner.rc (⟨2, 7⟩ : ArcInner Nat)) ≠ 1 ∧
    ∃ (h' : Heap Nat) (inner' : ArcInner Nat),
      MyArc.drop ⟨0⟩ (⟨[some ⟨2, 7⟩]⟩ : Heap Nat) = some (h', false) ∧
      Heap.get h' (MyArc.ptr ⟨0⟩) = some inner' ∧
      inner'.data = (ArcInner.data (⟨2, 7⟩ : ArcInner Nat)) ∧
      (inner'.rc + 1) % usizeSize = (ArcInner.rc (⟨2, 7⟩ : ArcInner Nat)) % usizeSize :=
  ⟨rfl, by decide, drop_nonlast_only_decrements ⟨[some ⟨2, 7⟩]⟩ ⟨0⟩ ⟨2, 7⟩ rfl (by decide)⟩

/-- C5: when the pre-increment count is at or beyond `isize::MAX as usize`,
`clone` terminates the process (`std::process::abort()`) instead of
returning a new handle with a wrapped counter. -/
theorem clone_overflow_aborts (h : Heap T) (a : MyArc) (inner : ArcInner T)
    (hget : Heap.get h a.ptr = some inner) (hovf : isizeMax ≤ inner.rc) :
    ∃ h' : Heap T, MyArc.clone a h = some (CloneResult.aborted h') := by
  refine ⟨Heap.set h a.ptr (some ⟨(inner.rc + 1) % usizeSize, inner.data⟩), ?_⟩
  simp only [MyArc.clone, hget]
  rw [if_pos hovf]

/-- Witness for C5: a block whose count sits exactly at the threshold. -/
theorem clone_overflow_aborts_witness :
    Heap.get (⟨[some ⟨isizeMax, 0⟩]⟩ : Heap Nat) (MyArc.ptr ⟨0⟩) = some ⟨isizeMax, 0⟩ ∧
    isizeMax ≤ (ArcInner.rc (⟨isizeMax, 0⟩ : ArcInner Nat)) ∧
    ∃ h' : Heap Nat,
      MyArc.clone ⟨0⟩ (⟨[some ⟨isizeMax, 0⟩]⟩ : Heap Nat) = some (CloneResult.aborted h') :=
  ⟨rfl, Nat.le_refl _, clone_overflow_aborts ⟨[some ⟨isizeMax, 0⟩]⟩ ⟨0⟩ ⟨isizeMax, 0⟩ rfl (Nat.le_refl _)⟩

/-- C10: the overflow abort happens after the `fetch_add`: in the aborting
case the heap already holds the incremented count (modulo the word size),
and it is not rolled back. -/
theorem clone_overflow_increment_precedes_abort (h : Heap T) (a : MyArc) (inner : ArcInner T)
    (hget : Heap.get h a.ptr = some inner) (hovf : isizeMax ≤ inner.rc) :
    MyArc.clone a h =
      some (CloneResult.aborted
        (Heap.set h a.ptr (some ⟨(inner.rc + 1) % usizeSize, inner.data⟩))) ∧
    Heap.get (Heap.set h a.ptr (some ⟨(inner.rc + 1) % usizeSize, inner.data⟩)) a.ptr =
      some ⟨(inner.rc + 1) % usizeSize, inner.data⟩ := by
  constructor
  · simp only [MyArc.clone, hget]
    rw [if_pos hovf]
  · exact Heap.get_set_self _ (Heap.get_some_lt hget)

/-- Witness for C10 at the threshold, payload `3`. -/
theorem clone_overflow_increment_precedes_abort_witness :
    Heap.get (⟨[some ⟨isizeMax, 3⟩]⟩ : Heap Nat) (MyArc.ptr ⟨0⟩) = some ⟨isizeMax, 3⟩ ∧
    isizeMax ≤ (ArcInner.rc (⟨isizeMax, 3⟩ : ArcInner Nat)) ∧
    (MyArc.clone ⟨0⟩ (⟨[some ⟨isizeMax, 3⟩]⟩ : Heap Nat) =
      some (CloneResult.aborted
        (Heap.set ⟨[some ⟨isizeMax, 3⟩]⟩ (MyArc.ptr ⟨0⟩) (some ⟨(isizeMax + 1) % usizeSize, 3⟩))) ∧
     Heap.get (Heap.set (⟨[some ⟨isizeMax, 3⟩]⟩ : Heap Nat) (MyArc.ptr ⟨0⟩)
        (some ⟨(isizeMax + 1) % usizeSize, 3⟩)) (MyArc.ptr ⟨0⟩) =
      some ⟨(isizeMax + 1) % usizeSize, 3⟩) :=
  ⟨rfl, Nat.le_refl _,
    clone_overflow_increment_precedes_abort ⟨[some ⟨isizeMax, 3⟩]⟩ ⟨0⟩ ⟨isizeMax, 3⟩ rfl
      (Nat.le_refl _)⟩

/-- C7: mutable access to the payload is unconditional: through any handle
whose block is allocated, whatever the count (including counts above `1`),
the write succeeds, the shared payload now reads back as the written value,
and the count is untouched. -/
theorem deref_mut_unconditional (h : Heap T) (a : MyArc) (inner : ArcInner T)
    (hget : Heap.get h a.ptr = some inner) (v : T) :
    ∃ h' : Heap T, MyArc.setData a v h = some h' ∧
      MyArc.deref a h' = some v ∧ MyArc.count a h' = some inner.rc := by
  have hlen := Heap.get_some_lt hget
  refine ⟨Heap.set h a.ptr (some ⟨inner.rc, v⟩), ?_, ?_, ?_⟩
  · simp only [MyArc.setData, hget, Option.map_some']
  · unfold MyArc.deref
    rw [Heap.get_set_self _ hlen]
    rfl
  · unfold MyArc.count
    rw [Heap.get_set_self _ hlen]
    rfl

/-- Witness for C7 at count `5 > 1`, writing `9` over payload `1`. -/
theorem deref_mut_unconditional_witness :
    Heap.get (⟨[some ⟨5, 1⟩]⟩ : Heap Nat) (MyArc.ptr ⟨0⟩) = some ⟨5, 1⟩ ∧
    1 < (ArcInner.rc (⟨5, 1⟩ : ArcInner Nat)) ∧
    ∃ h' : Heap Nat, MyArc.setData ⟨0⟩ 9 (⟨[some ⟨5, 1⟩]⟩ : Heap Nat) = some h' ∧
      MyArc.deref ⟨0⟩ h' = some 9 ∧
      MyArc.count ⟨0⟩ h' = some (ArcInner.rc (⟨5, 1⟩ : ArcInner Nat)) :=
  ⟨rfl, by decide, deref_mut_unconditional ⟨[some ⟨5, 1⟩]⟩ ⟨0⟩ ⟨5, 1⟩ rfl 9⟩

/-- C8: a clone shares the control block physically: the new handle carries
the same address, counts read through either handle agree on every heap, and
a payload written through the original is read back through the clone. -/
theorem clone_shares_control_block (h : Heap T) (a : MyArc) (inner : ArcInner T)
    (hget : Heap.get h a.ptr = some inner) (hlt : inner.rc < isizeMax) :
    ∃ (b : MyArc) (h1 : Heap T),
      MyArc.clone a h = some (CloneResult.ok b h1) ∧
      b.ptr = a.ptr ∧
      (∀ h' : Heap T, MyArc.count b h' = MyArc.count a h') ∧
      ∀ v : T, ∃ h2 : Heap T,
        MyArc.setData a v h1 = some h2 ∧ MyArc.deref b h2 = some v := by
  have hlen := Heap.get_some_lt hget
  refine ⟨⟨a.ptr⟩, Heap.set h a.ptr (some ⟨(inner.rc + 1) % usizeSize, inner.data⟩),
    ?_, rfl, fun h' => rfl, fun v => ?_⟩
  · simp only [MyArc.clone, hget]
    rw [if_neg (by omega)]
  · have hlen1 : a.ptr <
        (Heap.set h a.ptr (some ⟨(inner.rc + 1) % usizeSize, inner.data⟩)).blocks.length := by
      unfold Heap.set
      rw [List.length_set]
      exact hlen
    have hg1 : Heap.get (Heap.set h a.ptr (some ⟨(inner.rc + 1) % usizeSize, inner.data⟩)) a.ptr =
        some ⟨(inner.rc + 1) % usizeSize, inner.data⟩ := Heap.get_set_self _ hlen
    refine ⟨Heap.set (Heap.set h a.ptr (some ⟨(inner.rc + 1) % usizeSize, inner.data⟩)) a.ptr
      (some ⟨(inner.rc + 1) % usizeSize, v⟩), ?_, ?_⟩
    · simp only [MyArc.setData, hg1, Option.map_some']
    · unfold MyArc.deref
      rw [Heap.get_set_self _ hlen1]
      rfl

/-- Witness for C8: one block of count `1`, payload `4`, written over with `6`. -/
theorem clone_shares_control_block_witness :
    Heap.get (⟨[some ⟨1, 4⟩]⟩ : Heap Nat) (MyArc.ptr ⟨0⟩) = some ⟨1, 4⟩ ∧
    (ArcInner.rc (⟨1, 4⟩ : ArcInner Nat)) < isizeMax ∧
    ∃ (b : MyArc) (h1 : Heap Nat),
      MyArc.clone ⟨0⟩ (⟨[some ⟨1, 4⟩]⟩ : Heap Nat) = some (CloneResult.ok b h1) ∧
      b.ptr = MyArc.ptr ⟨0⟩ ∧
      (∀ h' : Heap Nat, MyArc.count b h' = MyArc.count ⟨0⟩ h') ∧
      ∀ v : Nat, ∃ h2 : Heap Nat,
        MyArc.setData ⟨0⟩ v h1 = some h2 ∧ MyArc.deref b h2 = some v :=
  ⟨rfl, by decide, clone_shares_control_block ⟨[some ⟨1, 4⟩]⟩ ⟨0⟩ ⟨1, 4⟩ rfl (by decide)⟩

/-- C9: the `Send`/`Sync` impls of `MyArc<T>` are conditional on `T` being
both `Send` and `Sync`: a handle over a payload lacking either capability
can itself neither be transferred to another thread nor shared across
threads. -/
theorem send_sync_requires_payload_caps (t : TypeCaps)
    (hu : t.send = false ∨ t.sync = false) :
    (myArcCaps t).send = false ∧ (myArcCaps t).sync = false := by
  unfold myArcCaps
  rcases hu with hx | hx <;> simp [hx]

/-- Witness for C9 at a `Send`-but-not-`Sync` payload (e.g. a `Cell`). -/
theorem send_sync_requires_payload_caps_witness :
    ((TypeCaps.send ⟨true, false⟩) = false ∨ (TypeCaps.sync ⟨true, false⟩) = false) ∧
    ((myArcCaps ⟨true, false⟩).send = false ∧ (myArcCaps ⟨true, false⟩).sync = false) :=
  ⟨Or.inr rfl, send_sync_requires_payload_caps ⟨true, false⟩ (Or.inr rfl)⟩
